import Mathlib

/-!
# Verification model of the PVF worker hardening code

A shallow embedding of `node/core/pvf/common/src/worker/security.rs`:

* `unshare_user_namespace_and_change_root` — the namespace/root isolation
  routine, modelled as a function over an abstract kernel (syscall) model so
  that every claim about syscall ordering and error propagation can be stated
  for arbitrary kernel behaviour;
* `remove_env_vars` — the environment scrubber, modelled over an explicit
  environment table (a list of key/value byte strings);
* the `landlock` module — `LANDLOCK_ABI`, `try_restrict`, `get_status` and
  `LandlockStatus`, modelled over an abstract landlock host.

Rust `OsStr`/`Path` values are byte lists (`List Nat`); a Rust `str` is a byte
list that passes UTF-8 validation, exactly as in Rust where `Path::to_str`
succeeds if and only if the bytes are valid UTF-8 and returns the same bytes.
-/

deriving instance DecidableEq for Except

/-- The UTF-8 bytes of an ASCII string literal (used only on ASCII input,
where the UTF-8 encoding is the identity on code points). -/
def asciiBytes (s : String) : List Nat := s.data.map Char.toNat

/-- For a leading UTF-8 byte, the ranges the following continuation bytes
must lie in (RFC 3629: no overlong forms, no surrogates, code points at most
`0x10FFFF`); `none` for an invalid leading byte. -/
def utf8Expect (b : Nat) : Option (List (Nat × Nat)) :=
  if b ≤ 127 then some []
  else if 194 ≤ b && b ≤ 223 then some [(128, 191)]
  else if b = 224 then some [(160, 191), (128, 191)]
  else if 225 ≤ b && b ≤ 236 then some [(128, 191), (128, 191)]
  else if b = 237 then some [(128, 159), (128, 191)]
  else if 238 ≤ b && b ≤ 239 then some [(128, 191), (128, 191)]
  else if b = 240 then some [(144, 191), (128, 191), (128, 191)]
  else if 241 ≤ b && b ≤ 243 then some [(128, 191), (128, 191), (128, 191)]
  else if b = 244 then some [(128, 143), (128, 191), (128, 191)]
  else none

/-- The UTF-8 validation automaton: `expect` is the list of byte ranges still
owed by the current multi-byte sequence. -/
def utf8Run : List (Nat × Nat) → List Nat → Bool
  | [], [] => true
  | [], b :: rest =>
    match utf8Expect b with
    | none => false
    | some expect => utf8Run expect rest
  | _ :: _, [] => false
  | (lo, hi) :: expect, b :: rest =>
    if lo ≤ b && b ≤ hi then utf8Run expect rest else false

/-- UTF-8 validity of a byte sequence — the check performed by Rust's
`std::str::from_utf8` and `Path::to_str`. -/
def utf8Valid (l : List Nat) : Bool := utf8Run [] l

/-- The bytes produced by `rand`'s `Alphanumeric` distribution: ASCII digits
and letters. The isolation routine samples its random token from this
distribution. -/
def alphanumericBytes (l : List Nat) : Bool :=
  l.all fun b =>
    (48 ≤ b && b ≤ 57) || (65 ≤ b && b ≤ 90) || (97 ≤ b && b ≤ 122)

theorem alphanumericBytes_utf8Valid {l : List Nat} (h : alphanumericBytes l = true) :
    utf8Valid l = true := by
  induction l with
  | nil => rfl
  | cons b rest ih =>
    simp only [alphanumericBytes, List.all_cons, Bool.and_eq_true] at h
    have hb : b ≤ 127 := by
      rcases h with ⟨hb, -⟩
      simp only [Bool.or_eq_true, Bool.and_eq_true, decide_eq_true_eq] at hb
      omega
    have hrest := ih h.2
    simp only [utf8Valid, utf8Run, utf8Expect, if_pos hb] at *
    exact hrest

theorem alphanumericBytes_no_nul {l : List Nat} (h : alphanumericBytes l = true) :
    0 ∉ l := by
  intro hmem
  simp only [alphanumericBytes, List.all_eq_true] at h
  have := h 0 hmem
  simp at this

/-!
The `libc` constants used by the isolation routine (numeric values of the
Linux ABI). Note that the `mkdir` mode literal `0755` in the Rust source is a
decimal literal (Rust has no leading-zero octal), i.e. the number `755`.
-/

namespace libc

def CLONE_NEWUSER : Nat := 0x10000000

def CLONE_NEWNS : Nat := 0x00020000

def MS_NOSUID : Nat := 2

def MS_NODEV : Nat := 4

def MS_NOEXEC : Nat := 8

def MS_BIND : Nat := 4096

def MS_REC : Nat := 16384

def MS_PRIVATE : Nat := 262144

def MNT_DETACH : Nat := 2

end libc

/-- The kernel operations invoked by `unshare_user_namespace_and_change_root`,
with the arguments the source passes to `libc`. -/
inductive Syscall where
  | unshare (flags : Nat)
  | mount (src : Option (List Nat)) (target : List Nat) (flags : Nat)
  | mkdir (path : List Nat) (mode : Nat)
  | pivot_root (new_root : List Nat) (put_old : List Nat)
  | chdir (path : List Nat)
  | umount2 (target : List Nat) (flags : Nat)
  | rmdir (path : List Nat)
deriving DecidableEq

/-- An abstract kernel: for each invoked syscall, whether it succeeds
(`true`) or fails (`false`, i.e. returns a negative value in C), together
with the successor kernel state. -/
structure KernelModel (K : Type) where
  exec : K → Syscall → Bool × K

/-- The outcome of one invocation of the isolation routine: Rust's
`Result<(), &'static str>` together with the possibility of a `panic`
(`expect`/`unwrap` in the source). -/
inductive RunOutcome where
  | ok
  | err (msg : String)
  | panicked (msg : String)
deriving DecidableEq

/-- Result of running the isolation routine against a kernel model: the list
of syscalls actually invoked (in invocation order), the final kernel state,
and the returned value. -/
structure IsoRun (K : Type) where
  trace : List Syscall
  kernel : K
  result : RunOutcome

/-- The byte string `"/oldroot-"`. -/
def oldrootDash : List Nat := asciiBytes "/oldroot-"

/-- Shallow embedding of `unshare_user_namespace_and_change_root` from
`worker/security.rs`. `worker_dir_path` is the `&Path` argument (OS-string
bytes); `token` is the 10-byte sample of `rand`'s `Alphanumeric` distribution,
made explicit as an argument. The function mirrors the source line by line:

* `std::str::from_utf8(&buf).expect(..)` — a panic if the token is not UTF-8;
* `worker_dir_path.to_str().ok_or("worker dir path is not valid UTF-8")?`;
* `CString::new(..).unwrap()` — a panic on an interior NUL byte;
* then the nine `libc` calls, each returning its own error on failure. -/
def unshare_user_namespace_and_change_root {K : Type} (M : KernelModel K) (k : K)
    (worker_dir_path : List Nat) (token : List Nat) : IsoRun K :=
  if utf8Valid token = false then
    ⟨[], k, .panicked "the string is collected from a valid utf-8 sequence; qed"⟩
  else if utf8Valid worker_dir_path = false then
    ⟨[], k, .err "worker dir path is not valid UTF-8"⟩
  else if 0 ∈ worker_dir_path then
    ⟨[], k, .panicked "CString::new: interior nul byte"⟩
  else if 0 ∈ token then
    ⟨[], k, .panicked "CString::new: interior nul byte"⟩
  else
    let root_absolute : List Nat := asciiBytes "/"
    let oldroot_relative : List Nat := worker_dir_path ++ oldrootDash ++ token
    let oldroot_absolute : List Nat := oldrootDash ++ token
    let c1 := Syscall.unshare libc.CLONE_NEWUSER
    let r1 := M.exec k c1
    if r1.1 = false then ⟨[c1], r1.2, .err "unshare user namespace"⟩ else
    let c2 := Syscall.unshare libc.CLONE_NEWNS
    let r2 := M.exec r1.2 c2
    if r2.1 = false then ⟨[c1, c2], r2.2, .err "unshare mount namespace"⟩ else
    let c3 := Syscall.mount none root_absolute (libc.MS_REC + libc.MS_PRIVATE)
    let r3 := M.exec r2.2 c3
    if r3.1 = false then ⟨[c1, c2, c3], r3.2, .err "mount MS_PRIVATE"⟩ else
    let c4 := Syscall.mount (some worker_dir_path) worker_dir_path
      (libc.MS_BIND + libc.MS_REC + libc.MS_NOEXEC + libc.MS_NODEV + libc.MS_NOSUID)
    let r4 := M.exec r3.2 c4
    if r4.1 = false then ⟨[c1, c2, c3, c4], r4.2, .err "mount MS_BIND"⟩ else
    let c5 := Syscall.mkdir oldroot_relative 755
    let r5 := M.exec r4.2 c5
    if r5.1 = false then ⟨[c1, c2, c3, c4, c5], r5.2, .err "mkdir oldroot"⟩ else
    let c6 := Syscall.pivot_root worker_dir_path oldroot_relative
    let r6 := M.exec r5.2 c6
    if r6.1 = false then ⟨[c1, c2, c3, c4, c5, c6], r6.2, .err "pivot_root"⟩ else
    let c7 := Syscall.chdir root_absolute
    let r7 := M.exec r6.2 c7
    if r7.1 = false then ⟨[c1, c2, c3, c4, c5, c6, c7], r7.2, .err "chdir to new root"⟩ else
    let c8 := Syscall.umount2 oldroot_absolute libc.MNT_DETACH
    let r8 := M.exec r7.2 c8
    if r8.1 = false then
      ⟨[c1, c2, c3, c4, c5, c6, c7, c8], r8.2, .err "umount2 the oldroot"⟩ else
    let c9 := Syscall.rmdir oldroot_absolute
    let r9 := M.exec r8.2 c9
    if r9.1 = false then
      ⟨[c1, c2, c3, c4, c5, c6, c7, c8, c9], r9.2, .err "rmdir the oldroot"⟩ else
    ⟨[c1, c2, c3, c4, c5, c6, c7, c8, c9], r9.2, .ok⟩

/-- The strictly-ordered step list the specification prescribes: each kernel
operation paired with its distinct, named error. -/
def plannedSteps (worker_dir_path token : List Nat) : List (Syscall × String) :=
  [ (.unshare libc.CLONE_NEWUSER, "unshare user namespace"),
    (.unshare libc.CLONE_NEWNS, "unshare mount namespace"),
    (.mount none (asciiBytes "/") (libc.MS_REC + libc.MS_PRIVATE), "mount MS_PRIVATE"),
    (.mount (some worker_dir_path) worker_dir_path
      (libc.MS_BIND + libc.MS_REC + libc.MS_NOEXEC + libc.MS_NODEV + libc.MS_NOSUID),
      "mount MS_BIND"),
    (.mkdir (worker_dir_path ++ oldrootDash ++ token) 755, "mkdir oldroot"),
    (.pivot_root worker_dir_path (worker_dir_path ++ oldrootDash ++ token), "pivot_root"),
    (.chdir (asciiBytes "/"), "chdir to new root"),
    (.umount2 (oldrootDash ++ token) libc.MNT_DETACH, "umount2 the oldroot"),
    (.rmdir (oldrootDash ++ token), "rmdir the oldroot") ]

/-- Reference execution following the specification's words: run the given
steps strictly in order; if a step's syscall fails, return that step's named
error immediately, executing no later step. -/
def runSeq {K : Type} (M : KernelModel K) : K → List (Syscall × String) → IsoRun K
  | k, [] => ⟨[], k, .ok⟩
  | k, (c, e) :: rest =>
    let r := M.exec k c
    if r.1 = false then ⟨[c], r.2, .err e⟩
    else
      let tail := runSeq M r.2 rest
      ⟨c :: tail.trace, tail.kernel, tail.result⟩

set_option maxHeartbeats 2000000 in
theorem iso_run_eq_runSeq {K : Type} (M : KernelModel K) (k : K)
    (p tok : List Nat) (hp : utf8Valid p = true) (hp0 : 0 ∉ p)
    (ht : utf8Valid tok = true) (ht0 : 0 ∉ tok) :
    unshare_user_namespace_and_change_root M k p tok = runSeq M k (plannedSteps p tok) := by
  simp only [unshare_user_namespace_and_change_root, plannedSteps]
  rw [if_neg (by simp [ht]), if_neg (by simp [hp]), if_neg hp0, if_neg ht0]
  rcases hr1 : M.exec k (Syscall.unshare libc.CLONE_NEWUSER) with ⟨b1, k1⟩
  simp only [runSeq, hr1]
  cases b1
  · simp
  · simp only [Bool.true_eq_false, if_false, ite_false, if_neg]
    rcases hr2 : M.exec k1 (Syscall.unshare libc.CLONE_NEWNS) with ⟨b2, k2⟩
    simp only [runSeq, hr2]
    cases b2
    · simp
    · simp only [Bool.true_eq_false, if_false, ite_false, if_neg]
      rcases hr3 : M.exec k2 (Syscall.mount none (asciiBytes "/")
          (libc.MS_REC + libc.MS_PRIVATE)) with ⟨b3, k3⟩
      simp only [runSeq, hr3]
      cases b3
      · simp
      · simp only [Bool.true_eq_false, if_false, ite_false, if_neg]
        rcases hr4 : M.exec k3 (Syscall.mount (some p) p
            (libc.MS_BIND + libc.MS_REC + libc.MS_NOEXEC + libc.MS_NODEV + libc.MS_NOSUID))
          with ⟨b4, k4⟩
        simp only [runSeq, hr4]
        cases b4
        · simp
        · simp only [Bool.true_eq_false, if_false, ite_false, if_neg]
          rcases hr5 : M.exec k4 (Syscall.mkdir (p ++ oldrootDash ++ tok) 755) with ⟨b5, k5⟩
          simp only [runSeq, hr5]
          cases b5
          · simp
          · simp only [Bool.true_eq_false, if_false, ite_false, if_neg]
            rcases hr6 : M.exec k5 (Syscall.pivot_root p (p ++ oldrootDash ++ tok))
              with ⟨b6, k6⟩
            simp only [runSeq, hr6]
            cases b6
            · simp
            · simp only [Bool.true_eq_false, if_false, ite_false, if_neg]
              rcases hr7 : M.exec k6 (Syscall.chdir (asciiBytes "/")) with ⟨b7, k7⟩
              simp only [runSeq, hr7]
              cases b7
              · simp
              · simp only [Bool.true_eq_false, if_false, ite_false, if_neg]
                rcases hr8 : M.exec k7 (Syscall.umount2 (oldrootDash ++ tok) libc.MNT_DETACH)
                  with ⟨b8, k8⟩
                simp only [runSeq, hr8]
                cases b8
                · simp
                · simp only [Bool.true_eq_false, if_false, ite_false, if_neg]
                  rcases hr9 : M.exec k8 (Syscall.rmdir (oldrootDash ++ tok)) with ⟨b9, k9⟩
                  simp only [runSeq, hr9]
                  cases b9 <;> simp

/-!
## A concrete kernel model for namespace semantics

`NsKernel` is modelled from the spec: the Linux kernel itself is not part of
the repository sources, so the kernel-side semantics the spec relies on are
modelled here following the spec's words: isolation's kernel state changes
"cannot be undone, shared, or inspected externally once applied", and
"invoking isolation twice in the same process must fail deterministically at
the first attempted namespace operation" (after the first `unshare`, the
process sits in an unprivileged user namespace with unmapped IDs, so a second
`unshare(CLONE_NEWUSER)` fails). Directories are a set of paths: `mkdir`
fails if and only if the path already exists, `rmdir` removes an existing
path and fails on a missing one, and `pivot_root` rebases every path: paths
under the new root are re-addressed relative to it, all other paths move
under the staging directory.
-/

/-- Boolean prefix test on lists (used for the kernel model's path rebasing
and for landlock's path-beneath rules). -/
def isPrefixB {α : Type} [BEq α] : List α → List α → Bool
  | [], _ => true
  | _ :: _, [] => false
  | a :: as, b :: bs => a == b && isPrefixB as bs

theorem isPrefixB_append_self {α : Type} [BEq α] [LawfulBEq α] (l t : List α) :
    isPrefixB l (l ++ t) = true := by
  induction l with
  | nil => rfl
  | cons b bs ih => simp [isPrefixB, ih]

theorem isPrefixB_refl {α : Type} [BEq α] [LawfulBEq α] (l : List α) :
    isPrefixB l l = true := by
  simpa using isPrefixB_append_self l []

/-- Modelled from the spec: kernel namespace/mount state for one process (the
kernel's own semantics are not part of the repository sources). -/
structure NsKernel where
  userNsUnshared : Bool
  mountNsUnshared : Bool
  dirs : List (List Nat)
deriving DecidableEq

/-- Modelled from the spec: execution of one syscall against `NsKernel`. -/
def nsExec (k : NsKernel) (c : Syscall) : Bool × NsKernel :=
  match c with
  | .unshare flags =>
    if flags = libc.CLONE_NEWUSER then
      if k.userNsUnshared then (false, k)
      else (true, { k with userNsUnshared := true })
    else (true, { k with mountNsUnshared := true })
  | .mount _ _ _ => (true, k)
  | .mkdir path _ =>
    if path ∈ k.dirs then (false, k)
    else (true, { k with dirs := path :: k.dirs })
  | .pivot_root new_root put_old =>
    (true, { k with dirs := k.dirs.map fun q =>
      if (isPrefixB new_root q) then q.drop new_root.length
      else put_old.drop new_root.length ++ q })
  | .chdir _ => (true, k)
  | .umount2 _ _ => (true, k)
  | .rmdir path =>
    if path ∈ k.dirs then (true, { k with dirs := k.dirs.filter fun q => decide (q ≠ path) })
    else (false, k)

/-- The kernel model induced by `nsExec`. -/
def nsModel : KernelModel NsKernel := ⟨nsExec⟩

/-- A process that has not yet unshared any namespace, over an arbitrary
pre-existing directory set. -/
def initialNsKernel (fs0 : List (List Nat)) : NsKernel :=
  { userNsUnshared := false, mountNsUnshared := false, dirs := fs0 }

theorem nsExec_preserves_userNs {k : NsKernel} (c : Syscall)
    (h : k.userNsUnshared = true) : ((nsExec k c).2).userNsUnshared = true := by
  cases c <;> simp only [nsExec] <;> (try split) <;> (try split) <;> simp [h]

theorem runSeq_ns_preserves_userNs (l : List (Syscall × String)) {k : NsKernel}
    (h : k.userNsUnshared = true) :
    (runSeq nsModel k l).kernel.userNsUnshared = true := by
  induction l generalizing k with
  | nil => exact h
  | cons step rest ih =>
    rcases step with ⟨c, e⟩
    simp only [runSeq]
    split
    · exact nsExec_preserves_userNs c h
    · exact ih (nsExec_preserves_userNs c h)

theorem runSeq_unshare_first_userNs (e : String) (rest : List (Syscall × String))
    (k : NsKernel) :
    (runSeq nsModel k ((Syscall.unshare libc.CLONE_NEWUSER, e) :: rest)).kernel.userNsUnshared
      = true := by
  cases hu : k.userNsUnshared with
  | true =>
    simp [runSeq, nsModel, nsExec, hu]
  | false =>
    simp only [runSeq, nsModel, nsExec, hu]
    simp only [if_pos rfl, Bool.false_eq_true, if_false, ite_false]
    simpa using runSeq_ns_preserves_userNs rest rfl

theorem iso_first_run_userNs (fs0 : List (List Nat)) (p tok : List Nat)
    (hp : utf8Valid p = true) (hp0 : 0 ∉ p)
    (ht : utf8Valid tok = true) (ht0 : 0 ∉ tok) :
    (unshare_user_namespace_and_change_root nsModel (initialNsKernel fs0) p tok).kernel.userNsUnshared
      = true := by
  rw [iso_run_eq_runSeq nsModel _ p tok hp hp0 ht ht0]
  exact runSeq_unshare_first_userNs _ _ _

theorem iso_blocked_of_userNs {k : NsKernel} (p tok : List Nat)
    (hp : utf8Valid p = true) (hp0 : 0 ∉ p)
    (ht : utf8Valid tok = true) (ht0 : 0 ∉ tok)
    (h : k.userNsUnshared = true) :
    unshare_user_namespace_and_change_root nsModel k p tok
      = ⟨[Syscall.unshare libc.CLONE_NEWUSER], k, .err "unshare user namespace"⟩ := by
  rw [iso_run_eq_runSeq nsModel k p tok hp hp0 ht ht0]
  simp [runSeq, plannedSteps, nsModel, nsExec, h]

theorem drop_length_append_self (l t : List Nat) : (l ++ t).drop l.length = t := by
  induction l with
  | nil => rfl
  | cons b bs ih => simpa using ih

theorem runSeq_planned_ok_staging_gone (k0 : NsKernel) (p tok : List Nat)
    (h : (runSeq nsModel k0 (plannedSteps p tok)).result = RunOutcome.ok) :
    (oldrootDash ++ tok) ∉ (runSeq nsModel k0 (plannedSteps p tok)).kernel.dirs := by
  cases hu : k0.userNsUnshared with
  | true =>
    simp [plannedSteps, runSeq, nsModel, nsExec, hu, libc.CLONE_NEWUSER, libc.CLONE_NEWNS] at h
  | false =>
    by_cases hmem : (p ++ (oldrootDash ++ tok)) ∈ k0.dirs
    · simp [plannedSteps, runSeq, nsModel, nsExec, hu, hmem,
        libc.CLONE_NEWUSER, libc.CLONE_NEWNS] at h
    · simp [plannedSteps, runSeq, nsModel, nsExec, hu, hmem,
        libc.CLONE_NEWUSER, libc.CLONE_NEWNS,
        isPrefixB_append_self, drop_length_append_self, List.mem_filter]

/-!
## Claim theorems about the isolation routine
-/

/-- A kernel model on which every syscall succeeds and carries no state, used
to instantiate universally quantified theorems at a concrete input. -/
def trivialKernel : KernelModel Unit := ⟨fun _ _ => (true, ())⟩

/-- The bytes of the ASCII path `"/worker"`. -/
def wPathBytes : List Nat := [47, 119, 111, 114, 107, 101, 114]

/-- The bytes of the ASCII alphanumeric token `"a0b1c2d3e4"`. -/
def wTok1 : List Nat := [97, 48, 98, 49, 99, 50, 100, 51, 101, 52]

/-- The bytes of the ASCII alphanumeric token `"f5g6h7i8j9"`. -/
def wTok2 : List Nat := [102, 53, 103, 54, 104, 55, 105, 56, 106, 57]

/-- C1: `unshare_user_namespace_and_change_root` performs its kernel
operations in exactly the specified order — unshare user namespace, unshare
mount namespace, remount root `MS_PRIVATE|MS_REC`, bind-mount the worker
directory onto itself with no-exec/no-dev/no-suid flags, create the staging
directory, `pivot_root`, `chdir` to the new root, detach-unmount the old
root, remove the staging directory — and for every step, if that step's
syscall fails the function returns a distinct named error for that step
immediately, without executing any later step: for every kernel model, the
run equals the strictly-ordered fail-fast reference execution `runSeq` over
`plannedSteps`, whose nine step errors are pairwise distinct. -/
theorem isolation_syscalls_ordered_fail_fast {K : Type} (M : KernelModel K) (k : K)
    (p tok : List Nat) (hp : utf8Valid p = true) (hp0 : 0 ∉ p)
    (ht : utf8Valid tok = true) (ht0 : 0 ∉ tok) :
    unshare_user_namespace_and_change_root M k p tok = runSeq M k (plannedSteps p tok)
      ∧ ((plannedSteps p tok).map Prod.snd).Nodup := by
  refine ⟨iso_run_eq_runSeq M k p tok hp hp0 ht ht0, ?_⟩
  simp only [plannedSteps, List.map]
  decide

/-- Witness for C1 at a concrete kernel model and concrete inputs. -/
theorem isolation_syscalls_ordered_fail_fast_witness :
    (utf8Valid wPathBytes = true ∧ 0 ∉ wPathBytes
        ∧ utf8Valid wTok1 = true ∧ 0 ∉ wTok1)
      ∧ (unshare_user_namespace_and_change_root trivialKernel () wPathBytes wTok1
            = runSeq trivialKernel () (plannedSteps wPathBytes wTok1)
          ∧ ((plannedSteps wPathBytes wTok1).map Prod.snd).Nodup) :=
  ⟨⟨by decide, by decide, by decide, by decide⟩,
   isolation_syscalls_ordered_fail_fast trivialKernel () wPathBytes wTok1
     (by decide) (by decide) (by decide) (by decide)⟩

/-- C9: for every worker-directory path that is not valid UTF-8, the
isolation routine returns the error `"worker dir path is not valid UTF-8"`
before performing any kernel operation: the syscall trace is empty and the
kernel state is unchanged, for every kernel model. -/
theorem non_utf8_worker_dir_rejected_before_syscalls {K : Type} (M : KernelModel K)
    (k : K) (p tok : List Nat) (ht : alphanumericBytes tok = true)
    (hp : utf8Valid p = false) :
    unshare_user_namespace_and_change_root M k p tok
      = ⟨[], k, RunOutcome.err "worker dir path is not valid UTF-8"⟩ := by
  have h1 := alphanumericBytes_utf8Valid ht
  simp [unshare_user_namespace_and_change_root, h1, hp]

/-- Witness for C9 at a concrete kernel model and a concrete non-UTF-8 path. -/
theorem non_utf8_worker_dir_rejected_before_syscalls_witness :
    (alphanumericBytes wTok1 = true ∧ utf8Valid [255] = false)
      ∧ unshare_user_namespace_and_change_root trivialKernel () [255] wTok1
          = ⟨[], (), RunOutcome.err "worker dir path is not valid UTF-8"⟩ :=
  ⟨⟨by decide, by decide⟩,
   non_utf8_worker_dir_rejected_before_syscalls trivialKernel () [255] wTok1
     (by decide) (by decide)⟩

/-- C7: invoking the isolation routine a second time in the same process
fails deterministically at the first attempted namespace operation (the
user-namespace `unshare`), returning that step's error; a second invocation
never silently succeeds: over the modelled kernel, after any first
invocation from a fresh process state, the second invocation's syscall trace
is exactly the first `unshare` and its result is the
`"unshare user namespace"` error. -/
theorem second_isolation_fails_at_first_namespace_op (fs0 : List (List Nat))
    (p t1 t2 : List Nat) (hp : utf8Valid p = true) (hp0 : 0 ∉ p)
    (h1 : alphanumericBytes t1 = true) (h2 : alphanumericBytes t2 = true) :
    unshare_user_namespace_and_change_root nsModel
        (unshare_user_namespace_and_change_root nsModel (initialNsKernel fs0) p t1).kernel
        p t2
      = ⟨[Syscall.unshare libc.CLONE_NEWUSER],
         (unshare_user_namespace_and_change_root nsModel (initialNsKernel fs0) p t1).kernel,
         RunOutcome.err "unshare user namespace"⟩ :=
  iso_blocked_of_userNs p t2 hp hp0 (alphanumericBytes_utf8Valid h2)
    (alphanumericBytes_no_nul h2)
    (iso_first_run_userNs fs0 p t1 hp hp0 (alphanumericBytes_utf8Valid h1)
      (alphanumericBytes_no_nul h1))

/-- Witness for C7 at concrete inputs. -/
theorem second_isolation_fails_at_first_namespace_op_witness :
    (utf8Valid wPathBytes = true ∧ alphanumericBytes wTok1 = true
        ∧ alphanumericBytes wTok2 = true)
      ∧ unshare_user_namespace_and_change_root nsModel
            (unshare_user_namespace_and_change_root nsModel
              (initialNsKernel []) wPathBytes wTok1).kernel
            wPathBytes wTok2
          = ⟨[Syscall.unshare libc.CLONE_NEWUSER],
             (unshare_user_namespace_and_change_root nsModel
               (initialNsKernel []) wPathBytes wTok1).kernel,
             RunOutcome.err "unshare user namespace"⟩ :=
  ⟨⟨by decide, by decide, by decide⟩,
   second_isolation_fails_at_first_namespace_op [] wPathBytes wTok1 wTok2
     (by decide) (by decide) (by decide) (by decide)⟩

/-- C8: under the same worker directory, distinct random tokens name
distinct staging directories (`oldroot-` plus the token); after the
isolation routine returns success the staging directory no longer exists (at
its post-pivot address); and a second sequential isolation attempt on the
same worker directory never fails with the staging-directory-creation error
— it is stopped at the first `unshare` before ever reaching `mkdir` — so the
two attempts' staging directories cannot collide. -/
theorem staging_dir_unique_and_removed_on_success (fs0 : List (List Nat))
    (p t1 t2 : List Nat) (hp : utf8Valid p = true) (hp0 : 0 ∉ p)
    (h1 : alphanumericBytes t1 = true) (h2 : alphanumericBytes t2 = true)
    (hne : t1 ≠ t2) :
    (p ++ oldrootDash ++ t1 ≠ p ++ oldrootDash ++ t2)
      ∧ ((unshare_user_namespace_and_change_root nsModel (initialNsKernel fs0) p t1).result
            = RunOutcome.ok →
          (oldrootDash ++ t1) ∉
            (unshare_user_namespace_and_change_root nsModel
              (initialNsKernel fs0) p t1).kernel.dirs)
      ∧ (unshare_user_namespace_and_change_root nsModel
            (unshare_user_namespace_and_change_root nsModel (initialNsKernel fs0) p t1).kernel
            p t2).result ≠ RunOutcome.err "mkdir oldroot" := by
  have hu1 := alphanumericBytes_utf8Valid h1
  have hn1 := alphanumericBytes_no_nul h1
  refine ⟨?_, ?_, ?_⟩
  · intro hcontra
    exact hne (List.append_cancel_left hcontra)
  · intro hok
    rw [iso_run_eq_runSeq nsModel _ p t1 hp hp0 hu1 hn1] at hok ⊢
    exact runSeq_planned_ok_staging_gone _ p t1 hok
  · rw [iso_blocked_of_userNs p t2 hp hp0 (alphanumericBytes_utf8Valid h2)
      (alphanumericBytes_no_nul h2)
      (iso_first_run_userNs fs0 p t1 hp hp0 hu1 hn1)]
    simp

/-- Witness for C8 at concrete inputs. -/
theorem staging_dir_unique_and_removed_on_success_witness :
    (wTok1 ≠ wTok2 ∧ alphanumericBytes wTok1 = true ∧ alphanumericBytes wTok2 = true)
      ∧ ((wPathBytes ++ oldrootDash ++ wTok1 ≠ wPathBytes ++ oldrootDash ++ wTok2)
          ∧ ((unshare_user_namespace_and_change_root nsModel
                  (initialNsKernel []) wPathBytes wTok1).result = RunOutcome.ok →
              (oldrootDash ++ wTok1) ∉
                (unshare_user_namespace_and_change_root nsModel
                  (initialNsKernel []) wPathBytes wTok1).kernel.dirs)
          ∧ (unshare_user_namespace_and_change_root nsModel
                (unshare_user_namespace_and_change_root nsModel
                  (initialNsKernel []) wPathBytes wTok1).kernel
                wPathBytes wTok2).result ≠ RunOutcome.err "mkdir oldroot") :=
  ⟨⟨by decide, by decide, by decide⟩,
   staging_dir_unique_and_removed_on_success [] wPathBytes wTok1 wTok2
     (by decide) (by decide) (by decide) (by decide) (by decide)⟩

/-!
## The environment scrubber

Shallow embedding of `remove_env_vars` from `worker/security.rs`. The
environment is an explicit table of key/value OS-string byte pairs (the
snapshot taken by `std::env::vars_os()`); `std::env::remove_var` is modelled
with the panic condition documented in the Rust standard library, which the
source links to when explaining why it logs a warning first.
-/

/-- An environment entry: key and value as OS-string bytes. -/
abbrev EnvEntry := List Nat × List Nat

/-- The byte string `"RUST_LOG"` — the single allow-listed variable that
`remove_env_vars` skips. -/
def RUST_LOG_BYTES : List Nat := asciiBytes "RUST_LOG"

/-- One emitted `gum::warn!` record: the worker's debug id, the offending
key and value, and the specific validation failure reasons. -/
structure EnvWarning where
  debug_id : String
  key : List Nat
  value : List Nat
  reasons : List String
deriving DecidableEq

/-- Result of `remove_env_vars`: the final environment table, the warnings
logged (in order), and — when `std::env::remove_var` panicked, aborting the
iteration — the panic message. -/
structure ScrubResult where
  env : List EnvEntry
  warnings : List EnvWarning
  panicked : Option String
deriving DecidableEq

/-- The validation `remove_env_vars` performs on one entry, pushing
`err_reasons` in source order. The `contains` checks go through
`to_str`/`is_some_and`, so they apply only when the key (resp. value) is
valid UTF-8; `=` is byte 61 and NUL is byte 0. -/
def err_reasons (key value : List Nat) : List String :=
  (if key = [] then ["key is empty"] else [])
    ++ (if utf8Valid key = true ∧ 61 ∈ key then ["key contains ="] else [])
    ++ (if utf8Valid key = true ∧ 0 ∈ key then ["key contains null character"] else [])
    ++ (if utf8Valid value = true ∧ 0 ∈ value then ["value contains null character"] else [])

/-- `std::env::remove_var`, modelled from its documentation (linked by the
source): it panics when the key is empty or contains an ASCII `=` or a NUL;
otherwise it removes every entry with that key. -/
def remove_var (env : List EnvEntry) (key : List Nat) :
    Except String (List EnvEntry) :=
  if key = [] ∨ 61 ∈ key ∨ 0 ∈ key then
    .error "called remove_var with an invalid key"
  else .ok (env.filter fun e => decide (e.1 ≠ key))

/-- The iteration of `remove_env_vars` over the `vars_os()` snapshot: skip
`RUST_LOG`; otherwise validate, log one warning when validation fails, then
attempt `remove_var`; a panic aborts the iteration. -/
def remove_env_vars_go (debug_id : String) :
    List EnvEntry → List EnvEntry → List EnvWarning → ScrubResult
  | [], env, ws => ⟨env, ws.reverse, none⟩
  | (key, value) :: rest, env, ws =>
    if key = RUST_LOG_BYTES then remove_env_vars_go debug_id rest env ws
    else
      let reasons := err_reasons key value
      let ws2 := if reasons = [] then ws else ⟨debug_id, key, value, reasons⟩ :: ws
      match remove_var env key with
      | .error msg => ⟨env, ws2.reverse, some msg⟩
      | .ok env2 => remove_env_vars_go debug_id rest env2 ws2

/-- Shallow embedding of `remove_env_vars` from `worker/security.rs`: iterate
over the snapshot of the environment, deleting everything but `RUST_LOG`. -/
def remove_env_vars (debug_id : String) (env : List EnvEntry) : ScrubResult :=
  remove_env_vars_go debug_id env env []

/-- The warnings the scrub emits on a table, in order: one per reached entry
that is not `RUST_LOG` and whose validation finds a reason; a panicking key
(empty, or containing `=` or NUL) stops the iteration right after its own
warning (if any). -/
def warningsOf (debug_id : String) : List EnvEntry → List EnvWarning
  | [] => []
  | (key, value) :: rest =>
    if key = RUST_LOG_BYTES then warningsOf debug_id rest
    else
      let w1 : List EnvWarning :=
        if err_reasons key value = [] then []
        else [⟨debug_id, key, value, err_reasons key value⟩]
      if key = [] ∨ 61 ∈ key ∨ 0 ∈ key then w1
      else w1 ++ warningsOf debug_id rest

/-- The keys the scrub targets for removal: every key in the table other
than `RUST_LOG`. -/
def scrubbedKeys (l : List EnvEntry) : List (List Nat) :=
  (l.map Prod.fst).filter fun k => decide (k ≠ RUST_LOG_BYTES)

/-- A well-formed environment entry in the spec's sense: non-empty key, no
`=` (byte 61) or NUL in the key, no NUL in the value. -/
def wellFormedEntry (key value : List Nat) : Prop :=
  key ≠ [] ∧ 61 ∉ key ∧ 0 ∉ key ∧ 0 ∉ value

theorem wellFormed_err_reasons_nil {key value : List Nat}
    (h : wellFormedEntry key value) : err_reasons key value = [] := by
  rcases h with ⟨h1, h2, h3, h4⟩
  simp [err_reasons, h1, h2, h3, h4]

theorem remove_env_vars_go_cons_rl (d : String) (key value : List Nat)
    (rest env : List EnvEntry) (ws : List EnvWarning) (hrl : key = RUST_LOG_BYTES) :
    remove_env_vars_go d ((key, value) :: rest) env ws
      = remove_env_vars_go d rest env ws := by
  simp [remove_env_vars_go, hrl]

theorem remove_env_vars_go_cons_ok (d : String) (key value : List Nat)
    (rest env : List EnvEntry) (ws : List EnvWarning)
    (hrl : ¬key = RUST_LOG_BYTES) (hbad : ¬(key = [] ∨ 61 ∈ key ∨ 0 ∈ key)) :
    remove_env_vars_go d ((key, value) :: rest) env ws
      = remove_env_vars_go d rest (env.filter fun e => decide (e.1 ≠ key))
          (if err_reasons key value = [] then ws
           else ⟨d, key, value, err_reasons key value⟩ :: ws) := by
  simp [remove_env_vars_go, remove_var, hrl, hbad]

theorem remove_env_vars_go_cons_panic (d : String) (key value : List Nat)
    (rest env : List EnvEntry) (ws : List EnvWarning)
    (hrl : ¬key = RUST_LOG_BYTES) (hbad : key = [] ∨ 61 ∈ key ∨ 0 ∈ key) :
    remove_env_vars_go d ((key, value) :: rest) env ws
      = ⟨env,
         (if err_reasons key value = [] then ws
          else ⟨d, key, value, err_reasons key value⟩ :: ws).reverse,
         some "called remove_var with an invalid key"⟩ := by
  simp [remove_env_vars_go, remove_var, hrl, hbad]

theorem remove_env_vars_go_warnings (d : String) (l : List EnvEntry) :
    ∀ env ws, (remove_env_vars_go d l env ws).warnings = ws.reverse ++ warningsOf d l := by
  induction l with
  | nil => intro env ws; simp [remove_env_vars_go, warningsOf]
  | cons e rest ih =>
    intro env ws
    rcases e with ⟨key, value⟩
    by_cases hrl : key = RUST_LOG_BYTES
    · simp [remove_env_vars_go, warningsOf, hrl, ih]
    · by_cases hbad : (key = [] ∨ 61 ∈ key ∨ 0 ∈ key)
      · by_cases hre : err_reasons key value = [] <;>
          simp [remove_env_vars_go, warningsOf, remove_var, hrl, hbad, hre]
      · by_cases hre : err_reasons key value = [] <;>
          simp [remove_env_vars_go, warningsOf, remove_var, hrl, hbad, hre, ih]

theorem remove_env_vars_go_env (d : String) (l : List EnvEntry) :
    ∀ env ws, (remove_env_vars_go d l env ws).panicked = none →
      (remove_env_vars_go d l env ws).env
        = env.filter fun e => decide (e.1 ∉ scrubbedKeys l) := by
  induction l with
  | nil =>
    intro env ws _
    simp [remove_env_vars_go, scrubbedKeys, List.filter_eq_self]
  | cons e rest ih =>
    intro env ws h
    rcases e with ⟨key, value⟩
    by_cases hrl : key = RUST_LOG_BYTES
    · rw [remove_env_vars_go_cons_rl d key value rest env ws hrl] at h ⊢
      rw [ih env ws h]
      refine List.filter_congr ?_
      intro x _
      simp [scrubbedKeys, hrl]
    · by_cases hbad : (key = [] ∨ 61 ∈ key ∨ 0 ∈ key)
      · exfalso
        rw [remove_env_vars_go_cons_panic d key value rest env ws hrl hbad] at h
        simp at h
      · rw [remove_env_vars_go_cons_ok d key value rest env ws hrl hbad] at h ⊢
        rw [ih _ _ h, List.filter_filter]
        have hsk : scrubbedKeys ((key, value) :: rest) = key :: scrubbedKeys rest := by
          simp [scrubbedKeys, List.filter_cons, hrl]
        rw [hsk]
        refine List.filter_congr ?_
        intro x _
        by_cases h1 : x.1 = key <;> by_cases h2 : x.1 ∈ scrubbedKeys rest <;>
          simp [h1, h2, List.mem_cons]

theorem remove_env_vars_go_panicked (d : String) (l : List EnvEntry) :
    ∀ env ws, ((remove_env_vars_go d l env ws).panicked = none
      ↔ ∀ e ∈ l, e.1 = RUST_LOG_BYTES ∨ ¬(e.1 = [] ∨ 61 ∈ e.1 ∨ 0 ∈ e.1)) := by
  induction l with
  | nil => intro env ws; simp [remove_env_vars_go]
  | cons e rest ih =>
    intro env ws
    rcases e with ⟨key, value⟩
    by_cases hrl : key = RUST_LOG_BYTES
    · rw [remove_env_vars_go_cons_rl d key value rest env ws hrl, ih]
      constructor
      · intro hrest e he
        rcases List.mem_cons.mp he with he' | he'
        · rw [he']
          exact Or.inl hrl
        · exact hrest e he'
      · intro hall e he
        exact hall e (List.mem_cons_of_mem _ he)
    · by_cases hbad : (key = [] ∨ 61 ∈ key ∨ 0 ∈ key)
      · rw [remove_env_vars_go_cons_panic d key value rest env ws hrl hbad]
        constructor
        · intro h
          exact absurd h (by simp)
        · intro hall
          exfalso
          rcases hall (key, value) (List.mem_cons_self _ _) with h1 | h1
          · exact hrl h1
          · exact h1 hbad
      · rw [remove_env_vars_go_cons_ok d key value rest env ws hrl hbad, ih]
        constructor
        · intro hrest e he
          rcases List.mem_cons.mp he with he' | he'
          · rw [he']
            exact Or.inr hbad
          · exact hrest e he'
        · intro hall e he
          exact hall e (List.mem_cons_of_mem _ he)

theorem mem_warningsOf {d : String} {l : List EnvEntry} {w : EnvWarning}
    (h : w ∈ warningsOf d l) :
    w.debug_id = d ∧ (w.key, w.value) ∈ l
      ∧ w.reasons = err_reasons w.key w.value
      ∧ err_reasons w.key w.value ≠ [] := by
  induction l with
  | nil => simp [warningsOf] at h
  | cons e rest ih =>
    rcases e with ⟨key, value⟩
    by_cases hrl : key = RUST_LOG_BYTES
    · rw [show warningsOf d ((key, value) :: rest) = warningsOf d rest from by
        simp [warningsOf, hrl]] at h
      have := ih h
      exact ⟨this.1, by simp [this.2.1], this.2.2⟩
    · by_cases hre : err_reasons key value = []
      · by_cases hbad : (key = [] ∨ 61 ∈ key ∨ 0 ∈ key)
        · rw [show warningsOf d ((key, value) :: rest) = [] from by
            simp [warningsOf, hrl, hre, hbad]] at h
          simp at h
        · rw [show warningsOf d ((key, value) :: rest) = warningsOf d rest from by
            simp [warningsOf, hrl, hre, hbad]] at h
          have := ih h
          exact ⟨this.1, by simp [this.2.1], this.2.2⟩
      · by_cases hbad : (key = [] ∨ 61 ∈ key ∨ 0 ∈ key)
        · rw [show warningsOf d ((key, value) :: rest)
              = [⟨d, key, value, err_reasons key value⟩] from by
            simp [warningsOf, hrl, hre, hbad]] at h
          simp at h
          subst h
          exact ⟨rfl, by simp, rfl, hre⟩
        · rw [show warningsOf d ((key, value) :: rest)
              = ⟨d, key, value, err_reasons key value⟩ :: warningsOf d rest from by
            simp [warningsOf, hrl, hre, hbad]] at h
          rcases List.mem_cons.mp h with h1 | h1
          · subst h1
            exact ⟨rfl, by simp, rfl, hre⟩
          · have := ih h1
            exact ⟨this.1, by simp [this.2.1], this.2.2⟩

/-- A concrete environment table: `PATH=/b` and `RUST_LOG=d`. -/
def c3Env : List EnvEntry := [([80, 65, 84, 72], [47, 98]), (RUST_LOG_BYTES, [100])]

/-- C3: for every environment table, when `remove_env_vars` completes (does
not panic), the resulting table's key set equals exactly the allow-list
(`RUST_LOG` alone) intersected with the original key set, and no warning is
produced for any well-formed entry (non-empty key, no `=` or NUL in the key,
no NUL in the value). -/
theorem scrub_keyset_allowlist (d : String) (env : List EnvEntry)
    (h : (remove_env_vars d env).panicked = none) :
    (∀ k, (∃ v, (k, v) ∈ (remove_env_vars d env).env)
        ↔ ((∃ v, (k, v) ∈ env) ∧ k = RUST_LOG_BYTES))
      ∧ ∀ w ∈ (remove_env_vars d env).warnings,
          ¬wellFormedEntry w.key w.value := by
  constructor
  · intro k
    constructor
    · rintro ⟨v, hv⟩
      rw [remove_env_vars, remove_env_vars_go_env d env env [] h, List.mem_filter] at hv
      rcases hv with ⟨hmem, hdec⟩
      simp only [decide_eq_true_eq] at hdec
      rcases eq_or_ne k RUST_LOG_BYTES with hk | hk
      · exact ⟨⟨v, hmem⟩, hk⟩
      · exfalso
        refine hdec ?_
        simp only [scrubbedKeys, List.mem_filter, List.mem_map, decide_eq_true_eq]
        exact ⟨⟨(k, v), hmem, rfl⟩, hk⟩
    · rintro ⟨⟨v, hv⟩, rfl⟩
      refine ⟨v, ?_⟩
      rw [remove_env_vars, remove_env_vars_go_env d env env [] h, List.mem_filter]
      refine ⟨hv, ?_⟩
      simp [scrubbedKeys, List.mem_filter]
  · intro w hw
    rw [remove_env_vars, remove_env_vars_go_warnings d env env []] at hw
    simp only [List.reverse_nil, List.nil_append] at hw
    intro hwf
    exact (mem_warningsOf hw).2.2.2 (wellFormed_err_reasons_nil hwf)

/-- Witness for C3 on the concrete table `c3Env`: scrubbing completes, and
the key `RUST_LOG` survives exactly because it was present originally. -/
theorem scrub_keyset_allowlist_witness :
    ((remove_env_vars "worker" c3Env).panicked = none)
      ∧ ((∃ v, (RUST_LOG_BYTES, v) ∈ (remove_env_vars "worker" c3Env).env)
          ↔ ((∃ v, (RUST_LOG_BYTES, v) ∈ c3Env) ∧ RUST_LOG_BYTES = RUST_LOG_BYTES)) :=
  ⟨by decide, (scrub_keyset_allowlist "worker" c3Env (by decide)).1 RUST_LOG_BYTES⟩

/-- C4 counterexample: on the table with the single entry whose key is the
non-UTF-8 bytes `[255, 61]` (it contains `=`, byte 61, so the entry is
malformed), `remove_env_vars` logs no warning at all (the `contains` checks
run on the UTF-8 view, which does not exist here) and the attempted removal
panics, aborting the scrub — refuting both "logs exactly one warning
identifying that key" and "scrubbing never raises a fatal error and never
aborts the worker, for any environment table". -/
theorem scrub_malformed_no_warning_and_aborts :
    (remove_env_vars "worker" [([255, 61], [65])]).warnings = []
      ∧ (remove_env_vars "worker" [([255, 61], [65])]).panicked ≠ none := by
  decide

/-- C4 amended: for every environment table, the logged warnings are exactly
`warningsOf` — one warning per reached entry that is not the allow-listed
`RUST_LOG` and whose validation (performed on the UTF-8 view of key and
value, as the code's `to_str`/`is_some_and` checks do) finds a reason — each
carrying that key, its value and the specific reasons; removal is still
attempted after the warning; and the scrub aborts (the modelled
`env::remove_var` panic, which the warning text itself predicts) precisely
when some entry has a non-allow-listed key that is empty or contains `=` or
NUL — otherwise scrubbing completes without any fatal error. -/
theorem scrub_warning_and_abort_characterization (d : String) (env : List EnvEntry) :
    ((remove_env_vars d env).warnings = warningsOf d env)
      ∧ (∀ w ∈ warningsOf d env,
          w.debug_id = d ∧ (w.key, w.value) ∈ env
            ∧ w.reasons = err_reasons w.key w.value ∧ w.reasons ≠ [])
      ∧ ((remove_env_vars d env).panicked = none
          ↔ ∀ e ∈ env, e.1 = RUST_LOG_BYTES ∨ ¬(e.1 = [] ∨ 61 ∈ e.1 ∨ 0 ∈ e.1)) := by
  refine ⟨?_, ?_, ?_⟩
  · rw [remove_env_vars, remove_env_vars_go_warnings d env env []]
    simp
  · intro w hw
    have hm := mem_warningsOf hw
    exact ⟨hm.1, hm.2.1, hm.2.2.1, by rw [hm.2.2.1]; exact hm.2.2.2⟩
  · exact remove_env_vars_go_panicked d env env []

/-- A concrete environment table with one malformed entry (`A` mapped to a
value containing NUL) that warns but does not panic. -/
def c4Env : List EnvEntry := [([65], [0])]

/-- The single warning the scrub emits on `c4Env`. -/
def c4Warning : EnvWarning := ⟨"worker", [65], [0], ["value contains null character"]⟩

/-- Witness for the amended C4 on the concrete table `c4Env`: the warning
list is exactly `warningsOf`, the concrete warning carries the key, value
and reasons of its malformed entry, and the scrub completes without panic. -/
theorem scrub_warning_and_abort_characterization_witness :
    (c4Warning ∈ warningsOf "worker" c4Env)
      ∧ ((remove_env_vars "worker" c4Env).warnings = warningsOf "worker" c4Env)
      ∧ (c4Warning.debug_id = "worker" ∧ (c4Warning.key, c4Warning.value) ∈ c4Env
          ∧ c4Warning.reasons = err_reasons c4Warning.key c4Warning.value
          ∧ c4Warning.reasons ≠ [])
      ∧ ((remove_env_vars "worker" c4Env).panicked = none
          ↔ ∀ e ∈ c4Env, e.1 = RUST_LOG_BYTES ∨ ¬(e.1 = [] ∨ 61 ∈ e.1 ∨ 0 ∈ e.1)) :=
  ⟨by decide,
   (scrub_warning_and_abort_characterization "worker" c4Env).1,
   (scrub_warning_and_abort_characterization "worker" c4Env).2.1 c4Warning (by decide),
   (scrub_warning_and_abort_characterization "worker" c4Env).2.2⟩

/-!
## The landlock module

Shallow embedding of the source's `landlock` module. The `landlock` crate
and the kernel's landlock enforcement are external dependencies, not among
the given sources, so their semantics are modelled from the spec: a host is
summarised by which access categories its kernel can enforce, whether each
ruleset-building stage succeeds cleanly, and the best ABI it offers (which
the code never consults); enforcement semantics are default-deny with
path-beneath allow-list exceptions.
-/

/-- To what degree landlock is enabled (the crate-level enum of the source,
with its doc comment on `Unavailable`: "Thread panicked, we don't know what
the status is."). -/
inductive LandlockStatus where
  | FullyEnforced
  | PartiallyEnforced
  | NotEnforced
  | Unavailable
deriving DecidableEq

/-- The landlock ABI versions discussed by the source (V1: 5.13, V2: 5.19). -/
inductive ABI where
  | V1
  | V2
deriving DecidableEq

/-- Modelled from the spec: the filesystem access-right categories of the
landlock crate; `Refer` (file reparenting) exists only from ABI V2. -/
inductive AccessFs where
  | Execute
  | WriteFile
  | ReadFile
  | ReadDir
  | RemoveDir
  | RemoveFile
  | MakeChar
  | MakeDir
  | MakeReg
  | MakeSock
  | MakeFifo
  | MakeBlock
  | MakeSym
  | Refer
deriving DecidableEq

/-- Modelled from the spec: `AccessFs::from_all` — every access right of the
given ABI. -/
def AccessFs.from_all : ABI → List AccessFs
  | .V1 => [.Execute, .WriteFile, .ReadFile, .ReadDir, .RemoveDir, .RemoveFile,
      .MakeChar, .MakeDir, .MakeReg, .MakeSock, .MakeFifo, .MakeBlock, .MakeSym]
  | .V2 => [.Execute, .WriteFile, .ReadFile, .ReadDir, .RemoveDir, .RemoveFile,
      .MakeChar, .MakeDir, .MakeReg, .MakeSock, .MakeFifo, .MakeBlock, .MakeSym, .Refer]

/-- Modelled from the spec: `AccessFs::from_read` — the read-associated
rights (execute, read file, list directory). -/
def AccessFs.from_read : ABI → List AccessFs
  | _ => [.Execute, .ReadFile, .ReadDir]

/-- Modelled from the spec: `AccessFs::from_write` — the write-associated
rights. -/
def AccessFs.from_write : ABI → List AccessFs
  | _ => [.WriteFile, .RemoveDir, .RemoveFile, .MakeChar, .MakeDir, .MakeReg,
      .MakeSock, .MakeFifo, .MakeBlock, .MakeSym]

/-- Landlock ABI version, from the source: a fixed compile-time constant,
`ABI::V1`, chosen for the reference kernel version and determinism across
validators — never the best ABI available on the current host. -/
def LANDLOCK_ABI : ABI := ABI.V1

/-- Modelled from the spec: one host's landlock capability and the clean
failure modes of the ruleset stages. `supported` is the set of access
categories the host kernel actually enforces; `bestAbi` is the best ABI the
host offers — deliberately present in the model and never consulted by
`try_restrict`. -/
structure LandlockHost where
  supported : List AccessFs
  bestAbi : ABI
  handleAccessOk : Bool
  createOk : Bool
  restrictOk : Bool
deriving DecidableEq

/-- The crate's `RulesetError`, abstracted to the failing stage. -/
inductive RulesetError where
  | handleAccess
  | create
  | addRule
  | restrictSelf
deriving DecidableEq

/-- The crate's `RulesetStatus`: to what degree the ruleset is enforced. -/
inductive RulesetStatus where
  | FullyEnforced
  | PartiallyEnforced
  | NotEnforced
deriving DecidableEq

/-- `LandlockStatus::from_ruleset_status` from the source. -/
def LandlockStatus.from_ruleset_status : RulesetStatus → LandlockStatus
  | .FullyEnforced => LandlockStatus.FullyEnforced
  | .PartiallyEnforced => LandlockStatus.PartiallyEnforced
  | .NotEnforced => LandlockStatus.NotEnforced

/-- A filesystem exception (`PathBeneath<PathFd>` of the crate): each access
right in `allowed` is granted beneath `path` (a path is a component list). -/
structure FsException where
  path : List String
  allowed : List AccessFs
deriving DecidableEq

/-- A ruleset under construction (`Ruleset::new().handle_access(..)`). -/
structure Ruleset where
  handled_fs : List AccessFs
deriving DecidableEq

/-- `Ruleset::new()`. -/
def Ruleset.new : Ruleset := ⟨[]⟩

/-- `handle_access`: declare the access set the ruleset will handle; fails
cleanly when the host's landlock support cannot express it. -/
def Ruleset.handle_access (r : Ruleset) (host : LandlockHost)
    (a : List AccessFs) : Except RulesetError Ruleset :=
  if host.handleAccessOk then .ok ⟨r.handled_fs ++ a⟩ else .error .handleAccess

/-- A created ruleset: handled accesses plus the added exception rules. -/
structure RulesetCreated where
  handled_fs : List AccessFs
  rules : List FsException
deriving DecidableEq

/-- `create`: materialise the ruleset; fails cleanly when the host kernel
cannot create one. -/
def Ruleset.create (r : Ruleset) (host : LandlockHost) :
    Except RulesetError RulesetCreated :=
  if host.createOk then .ok ⟨r.handled_fs, []⟩ else .error .create

/-- `add_rules`: add the given exception items in order, propagating the
first error item (the items are `Result`s, as produced by
`path_beneath_rules`). -/
def RulesetCreated.add_rules (rc : RulesetCreated) :
    List (Except RulesetError FsException) → Except RulesetError RulesetCreated
  | [] => .ok rc
  | .error e :: _ => .error e
  | .ok rule :: rest => RulesetCreated.add_rules ⟨rc.handled_fs, rc.rules ++ [rule]⟩ rest

/-- One landlock ruleset enforced on a thread: the access set the program
requested to handle, the subset the host kernel actually enforces, and the
exception rules. -/
structure EnforcedRuleset where
  requested : List AccessFs
  effective : List AccessFs
  rules : List FsException
deriving DecidableEq

/-- A thread's landlock state: the stack of rulesets enforced on it
(restrictions only ever accumulate). -/
structure ThreadState where
  enforced : List EnforcedRuleset
deriving DecidableEq

/-- Modelled from the spec: `restrict_self` applies the created ruleset to
the calling thread — atomically: on a clean failure no restriction is
applied — and reports the degree of enforcement: full when the host
enforces every handled access, none when it enforces none of them,
partial otherwise. -/
def RulesetCreated.restrict_self (rc : RulesetCreated) (host : LandlockHost)
    (th : ThreadState) : Except RulesetError (ThreadState × RulesetStatus) :=
  if host.restrictOk then
    let eff := rc.handled_fs.filter fun a => decide (a ∈ host.supported)
    let status :=
      if eff = rc.handled_fs then RulesetStatus.FullyEnforced
      else if eff = [] then RulesetStatus.NotEnforced
      else RulesetStatus.PartiallyEnforced
    .ok (⟨⟨rc.handled_fs, eff, rc.rules⟩ :: th.enforced⟩, status)
  else .error .restrictSelf

/-- Shallow embedding of `try_restrict` from the source's `landlock` module:
build a ruleset handling `AccessFs::from_all(LANDLOCK_ABI)`, `create` it,
`add_rules` the given exceptions, and `restrict_self`, propagating the first
error (the source's `?` chain); on success return the ruleset status. The
calling thread's state is explicit; every error branch returns it
unchanged. -/
def try_restrict (host : LandlockHost) (th : ThreadState)
    (fs_exceptions : List (Except RulesetError FsException)) :
    ThreadState × Except RulesetError RulesetStatus :=
  match Ruleset.new.handle_access host (AccessFs.from_all LANDLOCK_ABI) with
  | .error e => (th, .error e)
  | .ok r =>
    match r.create host with
    | .error e => (th, .error e)
    | .ok rc =>
      match rc.add_rules fs_exceptions with
      | .error e => (th, .error e)
      | .ok rc2 =>
        match rc2.restrict_self host th with
        | .error e => (th, .error e)
        | .ok (th2, status) => (th2, .ok status)

/-- The error type of `get_status` (`Box<dyn Error>` in the source, which
holds either the propagated `RulesetError` or the panic message string). -/
inductive GetStatusError where
  | ruleset (e : RulesetError)
  | message (s : String)
deriving DecidableEq

/-- Shallow embedding of `get_status` from the source:
`std::thread::spawn(|| try_restrict(std::iter::empty())).join()`, with the
spawned thread's crash made explicit as a flag. The probe runs
`try_restrict` with no exceptions on a fresh thread state; a clean status is
passed through, a clean ruleset error is boxed, and a thread panic is caught
by `join` and becomes the boxed message
`"a panic occurred in try_restrict"` — never a re-raised panic. -/
def get_status (host : LandlockHost) (probeThreadCrashed : Bool) :
    Except GetStatusError RulesetStatus :=
  let joined : Except Unit (Except RulesetError RulesetStatus) :=
    if probeThreadCrashed then .error ()
    else .ok (try_restrict host ⟨[]⟩ []).2
  match joined with
  | .ok (.ok status) => .ok status
  | .ok (.error ruleset_err) => .error (.ruleset ruleset_err)
  | .error _ => .error (.message "a panic occurred in try_restrict")

/-- Modelled from the spec: the worker-side caller of `get_status` that
converts the probe outcome into a `LandlockStatus` (the callers live outside
the given sources; the `Unavailable` doc comment — "Thread panicked, we
don't know what the status is" — fixes the mapping): a probe-thread crash
yields `Unavailable`, a clean status goes through
`LandlockStatus.from_ruleset_status`, and a clean ruleset failure stays an
error. -/
def probe_landlock_status (host : LandlockHost) (probeThreadCrashed : Bool) :
    Except GetStatusError LandlockStatus :=
  match get_status host probeThreadCrashed with
  | .ok status => .ok (LandlockStatus.from_ruleset_status status)
  | .error (.message _) => .ok LandlockStatus.Unavailable
  | .error (.ruleset e) => .error (.ruleset e)

/-- Does exception rule `r` cover an access of kind `a` on `path`? -/
def coversB (r : FsException) (path : List String) (a : AccessFs) : Bool :=
  isPrefixB r.path path && decide (a ∈ r.allowed)

/-- Modelled from the spec: whether the kernel permits a filesystem access
of kind `a` on `path` for a thread with the given enforced rulesets — every
enforced ruleset must either not (effectively) handle `a`, or contain an
exception rule covering the path with that right: landlock's default-deny
plus path-beneath allow-list semantics, intersected over stacked rulesets. -/
def accessAllowed (th : ThreadState) (path : List String) (a : AccessFs) : Bool :=
  th.enforced.all fun rs =>
    !(decide (a ∈ rs.effective)) || rs.rules.any fun r => coversB r path a

/-- The exception rules successfully supplied in an item list. -/
def okRules (excs : List (Except RulesetError FsException)) : List FsException :=
  excs.filterMap fun x => match x with | .ok r => some r | .error _ => none

theorem mem_okRules {r : FsException} {excs : List (Except RulesetError FsException)} :
    r ∈ okRules excs ↔ Except.ok r ∈ excs := by
  simp only [okRules, List.mem_filterMap]
  constructor
  · rintro ⟨x, hx, hfx⟩
    cases x with
    | ok y =>
      simp only [Option.some.injEq] at hfx
      rw [← hfx]
      exact hx
    | error e => simp at hfx
  · intro hx
    exact ⟨.ok r, hx, rfl⟩

theorem handle_access_ok {host : LandlockHost} {a : List AccessFs}
    {r0 r : Ruleset} (h : r0.handle_access host a = .ok r) :
    r.handled_fs = r0.handled_fs ++ a := by
  unfold Ruleset.handle_access at h
  split at h
  · simp only [Except.ok.injEq] at h
    rw [← h]
  · simp at h

theorem create_ok {host : LandlockHost} {r : Ruleset} {rc : RulesetCreated}
    (h : r.create host = .ok rc) :
    rc.handled_fs = r.handled_fs ∧ rc.rules = [] := by
  unfold Ruleset.create at h
  split at h
  · simp only [Except.ok.injEq] at h
    rw [← h]
    exact ⟨rfl, rfl⟩
  · simp at h

theorem add_rules_ok (excs : List (Except RulesetError FsException)) :
    ∀ rc rc2 : RulesetCreated, rc.add_rules excs = .ok rc2 →
      rc2.handled_fs = rc.handled_fs ∧ rc2.rules = rc.rules ++ okRules excs := by
  induction excs with
  | nil =>
    intro rc rc2 h
    simp only [RulesetCreated.add_rules, Except.ok.injEq] at h
    rw [← h]
    exact ⟨rfl, by simp [okRules]⟩
  | cons x rest ih =>
    intro rc rc2 h
    cases x with
    | error e => simp [RulesetCreated.add_rules] at h
    | ok rule =>
      have h2 := ih _ _ (by simpa [RulesetCreated.add_rules] using h)
      refine ⟨h2.1, ?_⟩
      rw [h2.2]
      simp [okRules, List.filterMap_cons]

theorem restrict_self_ok {rc : RulesetCreated} {host : LandlockHost}
    {th th2 : ThreadState} {status : RulesetStatus}
    (h : rc.restrict_self host th = .ok (th2, status)) :
    th2.enforced
      = (⟨rc.handled_fs, rc.handled_fs.filter fun a => decide (a ∈ host.supported),
          rc.rules⟩ : EnforcedRuleset) :: th.enforced := by
  unfold RulesetCreated.restrict_self at h
  split at h
  · simp only [Except.ok.injEq, Prod.mk.injEq] at h
    rw [← h.1]
  · simp at h

theorem restrict_self_fully {rc : RulesetCreated} {host : LandlockHost}
    {th th2 : ThreadState}
    (h : rc.restrict_self host th = .ok (th2, RulesetStatus.FullyEnforced)) :
    (rc.handled_fs.filter fun a => decide (a ∈ host.supported)) = rc.handled_fs := by
  unfold RulesetCreated.restrict_self at h
  split at h
  · simp only [Except.ok.injEq, Prod.mk.injEq] at h
    rcases h with ⟨-, hst⟩
    by_cases h1 : (rc.handled_fs.filter fun a => decide (a ∈ host.supported))
        = rc.handled_fs
    · exact h1
    · exfalso
      rw [if_neg h1] at hst
      split at hst <;> simp at hst
  · simp at h

/-- C10: `try_restrict` is atomic with respect to the calling thread's
enforcement state: whenever it returns an error — from ruleset construction,
from adding an exception rule, or from self-restriction — the thread's
landlock state is unchanged; enforcement changes only on the `Ok` path. -/
theorem try_restrict_error_leaves_thread_unchanged (host : LandlockHost)
    (th : ThreadState) (excs : List (Except RulesetError FsException))
    (e : RulesetError) (h : (try_restrict host th excs).2 = .error e) :
    (try_restrict host th excs).1 = th := by
  rcases hha : Ruleset.new.handle_access host (AccessFs.from_all LANDLOCK_ABI) with e1 | r
  · simp [try_restrict, hha]
  · rcases hcr : r.create host with e2 | rc
    · simp [try_restrict, hha, hcr]
    · rcases har : rc.add_rules excs with e3 | rc2
      · simp [try_restrict, hha, hcr, har]
      · rcases hrs : rc2.restrict_self host th with e4 | thstatus
        · simp [try_restrict, hha, hcr, har, hrs]
        · rcases thstatus with ⟨th2, status⟩
          simp [try_restrict, hha, hcr, har, hrs] at h

/-- The host used in the C10 witness: landlock supported but the final
`restrict_self` fails cleanly. -/
def c10Host : LandlockHost :=
  ⟨AccessFs.from_all ABI.V2, ABI.V2, true, true, false⟩

/-- Witness for C10: on `c10Host`, `try_restrict` fails at `restrict_self`
and the thread state is unchanged. -/
theorem try_restrict_error_leaves_thread_unchanged_witness :
    ((try_restrict c10Host ⟨[]⟩ []).2 = .error .restrictSelf)
      ∧ (try_restrict c10Host ⟨[]⟩ []).1 = (⟨[]⟩ : ThreadState) :=
  ⟨by decide,
   try_restrict_error_leaves_thread_unchanged c10Host ⟨[]⟩ [] .restrictSelf (by decide)⟩

/-- C6: the enforced landlock ABI is the fixed compile-time constant
`ABI::V1`, and `try_restrict` handles exactly the filesystem-access set of
that constant: every ruleset it ever adds to a thread's enforcement state
has requested access set `AccessFs.from_all ABI.V1`, for every host —
whatever its best ABI or supported access set — so the requested restriction
set is identical across any two runs on any two hosts and is never
negotiated up to the host's best ABI. -/
theorem landlock_abi_fixed_v1 :
    LANDLOCK_ABI = ABI.V1
      ∧ ∀ (host : LandlockHost) (th : ThreadState)
          (excs : List (Except RulesetError FsException)) (rs : EnforcedRuleset),
          rs ∈ (try_restrict host th excs).1.enforced →
            rs ∈ th.enforced ∨ rs.requested = AccessFs.from_all ABI.V1 := by
  refine ⟨rfl, ?_⟩
  intro host th excs rs hmem
  rcases hha : Ruleset.new.handle_access host (AccessFs.from_all LANDLOCK_ABI) with e1 | r
  · left
    simpa [try_restrict, hha] using hmem
  · rcases hcr : r.create host with e2 | rc
    · left
      simpa [try_restrict, hha, hcr] using hmem
    · rcases har : rc.add_rules excs with e3 | rc2
      · left
        simpa [try_restrict, hha, hcr, har] using hmem
      · rcases hrs : rc2.restrict_self host th with e4 | thstatus
        · left
          simpa [try_restrict, hha, hcr, har, hrs] using hmem
        · rcases thstatus with ⟨th2, status⟩
          have hmem2 : rs ∈ th2.enforced := by
            simpa [try_restrict, hha, hcr, har, hrs] using hmem
          rw [restrict_self_ok hrs] at hmem2
          rcases List.mem_cons.mp hmem2 with h1 | h1
          · right
            rw [h1]
            have f1 := handle_access_ok hha
            have f2 := (create_ok hcr).1
            have f3 := (add_rules_ok excs rc rc2 har).1
            simp only [f3, f2, f1, Ruleset.new, List.nil_append, LANDLOCK_ABI]
          · exact Or.inl h1

/-- The host used in the C6 witness: a V2-capable host supporting every V2
access right; the requested set is still exactly the V1 set. -/
def c6Host : LandlockHost :=
  ⟨AccessFs.from_all ABI.V2, ABI.V2, true, true, true⟩

/-- The ruleset `try_restrict` enforces on `c6Host`. -/
def c6Ruleset : EnforcedRuleset :=
  ⟨AccessFs.from_all ABI.V1, AccessFs.from_all ABI.V1, []⟩

/-- Witness for C6: on the V2-capable `c6Host`, the enforced ruleset's
requested set is exactly `AccessFs.from_all ABI.V1`. -/
theorem landlock_abi_fixed_v1_witness :
    (c6Ruleset ∈ (try_restrict c6Host ⟨[]⟩ []).1.enforced)
      ∧ (c6Ruleset ∈ (⟨[]⟩ : ThreadState).enforced
          ∨ c6Ruleset.requested = AccessFs.from_all ABI.V1) :=
  ⟨by decide, landlock_abi_fixed_v1.2 c6Host ⟨[]⟩ [] c6Ruleset (by decide)⟩

/-- C5: `get_status` runs the trial restriction (`try_restrict` with no
exceptions) on a separate thread and joins it; a crash of the probe thread
is caught by the join and surfaced as the boxed message error — never
re-raised as a panic (`get_status` is a total function of the join outcome)
— and the worker-side status mapping turns exactly that case into
`LandlockStatus.Unavailable`; a clean run of the trial restriction, whether
it succeeds or fails, never yields `Unavailable`. -/
theorem probe_crash_yields_unavailable (host : LandlockHost) :
    (get_status host true = .error (.message "a panic occurred in try_restrict"))
      ∧ (probe_landlock_status host true = .ok LandlockStatus.Unavailable)
      ∧ (probe_landlock_status host false ≠ .ok LandlockStatus.Unavailable) := by
  refine ⟨rfl, rfl, ?_⟩
  unfold probe_landlock_status get_status
  rcases hres : (try_restrict host ⟨[]⟩ []).2 with e | status
  · simp [hres]
  · simp only [hres, Bool.false_eq_true, if_false, ite_false]
    cases status <;> simp [LandlockStatus.from_ruleset_status]

/-- C2: when `try_restrict` is applied (to a thread with no prior
restrictions) and reports `FullyEnforced`, a filesystem access is
subsequently permitted if and only if it is covered by one of the supplied
exceptions. In particular: with zero exceptions every read and write is
denied; with a read-rights exception for a path `P`, reads under `P`
succeed, reads outside `P` are denied, and writes under `P` are still
denied; and with a read exception lacking the list-directory right for a
directory, reading a file inside succeeds while enumerating the directory is
denied. -/
theorem try_restrict_fully_enforced_access (host : LandlockHost)
    (excs : List (Except RulesetError FsException)) (th2 : ThreadState)
    (h : try_restrict host ⟨[]⟩ excs = (th2, .ok RulesetStatus.FullyEnforced)) :
    (∀ (path : List String) (a : AccessFs), a ∈ AccessFs.from_all LANDLOCK_ABI →
        (accessAllowed th2 path a = true
          ↔ ∃ r, Except.ok r ∈ excs ∧ coversB r path a = true))
      ∧ (excs = [] → ∀ path : List String,
          accessAllowed th2 path .ReadFile = false
            ∧ accessAllowed th2 path .WriteFile = false)
      ∧ (∀ P path : List String,
          excs = [.ok ⟨P, AccessFs.from_read LANDLOCK_ABI⟩] →
          (isPrefixB P path = true → accessAllowed th2 path .ReadFile = true)
            ∧ (isPrefixB P path = false → accessAllowed th2 path .ReadFile = false)
            ∧ accessAllowed th2 path .WriteFile = false)
      ∧ (∀ P path : List String,
          excs = [.ok ⟨P, (AccessFs.from_read LANDLOCK_ABI).filter
              fun a => decide (a ≠ AccessFs.ReadDir)⟩] →
          (isPrefixB P path = true → accessAllowed th2 path .ReadFile = true)
            ∧ accessAllowed th2 P .ReadDir = false) := by
  rcases hha : Ruleset.new.handle_access host (AccessFs.from_all LANDLOCK_ABI) with e1 | r
  · simp [try_restrict, hha] at h
  · rcases hcr : r.create host with e2 | rc
    · simp [try_restrict, hha, hcr] at h
    · rcases har : rc.add_rules excs with e3 | rc2
      · simp [try_restrict, hha, hcr, har] at h
      · rcases hrs : rc2.restrict_self host ⟨[]⟩ with e4 | thstatus
        · simp [try_restrict, hha, hcr, har, hrs] at h
        · rcases thstatus with ⟨th2x, status⟩
          have hx : th2x = th2 ∧ status = RulesetStatus.FullyEnforced := by
            simp [try_restrict, hha, hcr, har, hrs] at h
            exact h
          obtain ⟨hth, hstat⟩ := hx
          subst hth
          subst hstat
          have hfull := restrict_self_fully hrs
          have henf := restrict_self_ok hrs
          have hhandled : rc2.handled_fs = AccessFs.from_all ABI.V1 := by
            have f1 := handle_access_ok hha
            have f2 := (create_ok hcr).1
            have f3 := (add_rules_ok excs rc rc2 har).1
            simp [f3, f2, f1, Ruleset.new, LANDLOCK_ABI]
          have hrules : rc2.rules = okRules excs := by
            have f2 := (create_ok hcr).2
            have f3 := (add_rules_ok excs rc rc2 har).2
            simp [f3, f2]
          have hAA : ∀ (path : List String) (a : AccessFs),
              accessAllowed th2x path a
                = (!(decide (a ∈ AccessFs.from_all ABI.V1))
                    || (okRules excs).any fun rr => coversB rr path a) := by
            intro path a
            rw [accessAllowed, henf]
            rw [hfull, hhandled, hrules]
            simp
          refine ⟨?_, ?_, ?_, ?_⟩
          · intro path a ha
            rw [hAA path a]
            have hd : decide (a ∈ AccessFs.from_all ABI.V1) = true := by
              simp only [LANDLOCK_ABI] at ha
              simp [ha]
            rw [hd]
            simp [List.any_eq_true, mem_okRules]
          · rintro rfl path
            refine ⟨?_, ?_⟩ <;> simp [hAA, okRules, AccessFs.from_all]
          · intro P path hexcs
            subst hexcs
            refine ⟨?_, ?_, ?_⟩
            · intro hpre
              simp [hAA, okRules, coversB, AccessFs.from_all, AccessFs.from_read,
                LANDLOCK_ABI, hpre]
            · intro hpre
              simp [hAA, okRules, coversB, AccessFs.from_all, AccessFs.from_read,
                LANDLOCK_ABI, hpre]
            · simp [hAA, okRules, coversB, AccessFs.from_all, AccessFs.from_read,
                LANDLOCK_ABI]
          · intro P path hexcs
            subst hexcs
            refine ⟨?_, ?_⟩
            · intro hpre
              simp [hAA, okRules, coversB, AccessFs.from_all, AccessFs.from_read,
                LANDLOCK_ABI, hpre]
            · simp [hAA, okRules, coversB, AccessFs.from_all, AccessFs.from_read,
                LANDLOCK_ABI]

/-- The host used in the C2 witness: full V2 support, all stages succeed. -/
def c2Host : LandlockHost :=
  ⟨AccessFs.from_all ABI.V2, ABI.V2, true, true, true⟩

/-- The single read exception of the C2 witness. -/
def c2Exc : FsException := ⟨["tmp", "f1"], AccessFs.from_read ABI.V1⟩

/-- The exception list fed to `try_restrict` in the C2 witness. -/
def c2Excs : List (Except RulesetError FsException) := [.ok c2Exc]

/-- The thread state `try_restrict` produces in the C2 witness. -/
def c2Thread : ThreadState :=
  ⟨[⟨AccessFs.from_all ABI.V1, AccessFs.from_all ABI.V1, [c2Exc]⟩]⟩

/-- Witness for C2: on `c2Host` with the read exception for `tmp/f1`,
`try_restrict` reports `FullyEnforced` and a read under the exception is
permitted exactly because the exception covers it. -/
theorem try_restrict_fully_enforced_access_witness :
    (try_restrict c2Host ⟨[]⟩ c2Excs = (c2Thread, .ok RulesetStatus.FullyEnforced))
      ∧ (accessAllowed c2Thread ["tmp", "f1", "x"] .ReadFile = true
          ↔ ∃ r, Except.ok r ∈ c2Excs ∧ coversB r ["tmp", "f1", "x"] .ReadFile = true) :=
  ⟨by decide,
   (try_restrict_fully_enforced_access c2Host c2Excs c2Thread (by decide)).1
     ["tmp", "f1", "x"] .ReadFile (by decide)⟩
